import Mathlib

/-!
Verification development for the Kobo → SharePoint direct media-transfer
pipeline (`kobo_sharepoint_media.py`).  The Python functions relevant to the
frozen claims are shallowly embedded as executable Lean definitions:

* pure string manipulation (`sanitize_filename`, `clean_text_for_filename`,
  `format_date`, `create_filename`, `is_file_already_uploaded`,
  `parse_attachments`, `extract_urls_fallback`, `get_download_url`);
* the stateful transfer engine `stream_media_to_sharepoint`, embedded as a
  function from an abstract HTTP environment and a statistics record to a
  result record (HTTP responses are modelled by their status codes, a raised
  exception inside the surrounding `try` block by a flag);
* the naming-format flag dataflow of `process_form_media`, embedded as a fold
  that threads the mutable `self.current_form_naming_format` field.

Python strings are modelled as Lean `String`; `str.isalnum` / regex `\w` are
modelled at the ASCII level (`Char.isAlphanum`), which is exact on the ASCII
inputs the pipeline manipulates.  Machine integers do not occur (all Python
ints here are unbounded).
-/

/-! ## Python string primitives -/

/-- Characters stripped by Python's `str.strip()` (ASCII whitespace). -/
def pyIsSpace (c : Char) : Bool :=
  c = ' ' || c = '\t' || c = '\n' || c = '\r' || c = '\x0b' || c = '\x0c'

/-- Python `str.strip()`. -/
def pyStrip (s : String) : String :=
  String.mk (((s.toList.dropWhile pyIsSpace).reverse.dropWhile pyIsSpace).reverse)

/-- Python `str.rstrip(cs)`: drop trailing characters belonging to `cs`. -/
def pyRstrip (s : String) (cs : List Char) : String :=
  String.mk ((s.toList.reverse.dropWhile (fun c => cs.contains c)).reverse)

/-- Python `s[1:-1]`. -/
def pySlice1 (s : String) : String :=
  String.mk (s.toList.drop 1).dropLast

/-- Python `s.split(sep)` for a nonempty separator, on character lists (the
fuel, at least the input length plus one, makes the recursion structural). -/
def splitChars (sep : List Char) : Nat → List Char → List (List Char)
  | 0, s => [s]
  | fuel + 1, s =>
    if sep.isPrefixOf s && !sep.isEmpty then
      [] :: splitChars sep fuel (s.drop sep.length)
    else
      match s with
      | [] => [[]]
      | c :: rest =>
        match splitChars sep fuel rest with
        | [] => [[c]]
        | group :: groups => (c :: group) :: groups

/-- Python `s.split(sep)` (nonempty `sep`). -/
def pySplit (s sep : String) : List String :=
  (splitChars sep.toList (s.toList.length + 1) s.toList).map String.mk

/-- Leftmost non-overlapping replace-all, on character lists. -/
def replaceChars (pat repl : List Char) : Nat → List Char → List Char
  | 0, s => s
  | fuel + 1, s =>
    if pat.isPrefixOf s && !pat.isEmpty then
      repl ++ replaceChars pat repl fuel (s.drop pat.length)
    else
      match s with
      | [] => []
      | c :: rest => c :: replaceChars pat repl fuel rest

/-- Python `s.replace(pat, repl)` (nonempty `pat`). -/
def pyReplace (s pat repl : String) : String :=
  String.mk (replaceChars pat.toList repl.toList (s.toList.length + 1) s.toList)

/-- Python `s.startswith(pre)`. -/
def pyStartsWith (s pre : String) : Bool :=
  pre.toList.isPrefixOf s.toList

/-- Python `s.endswith(suf)`. -/
def pyEndsWith (s suf : String) : Bool :=
  suf.toList.isSuffixOf s.toList

/-- Python `s.lower()` (ASCII model). -/
def pyToLower (s : String) : String :=
  String.mk (s.toList.map Char.toLower)

/-- Python `s[n:]`. -/
def strDrop (s : String) (n : Nat) : String :=
  String.mk (s.toList.drop n)

/-- Boolean infix test on character lists. -/
def listInfixOf (needle : List Char) : List Char → Bool
  | [] => needle.isEmpty
  | c :: rest => needle.isPrefixOf (c :: rest) || listInfixOf needle rest

/-- Substring test, Python's `sub in s`. -/
def strContains (s sub : String) : Bool :=
  listInfixOf sub.toList s.toList

/-- Decimal digit character (`d` is expected to be below 10). -/
def digitChar (d : Nat) : Char :=
  match d with
  | 0 => '0' | 1 => '1' | 2 => '2' | 3 => '3' | 4 => '4'
  | 5 => '5' | 6 => '6' | 7 => '7' | 8 => '8' | 9 => '9'
  | _ => '0'

/-- Decimal digit list of a natural number (most significant first), with a
fuel argument for structural recursion (`fuel` bounds the digit count). -/
def natDigitsAux : Nat → Nat → List Char
  | 0, _ => []
  | fuel + 1, n =>
    if n < 10 then [digitChar n]
    else natDigitsAux fuel (n / 10) ++ [digitChar (n % 10)]

def natDigits (n : Nat) : List Char := natDigitsAux (n + 1) n

/-- Python `str(n)` for a nonnegative int. -/
def pyStr (n : Nat) : String :=
  String.mk (natDigits n)

/-- Zero-pad to two digits, as C `strftime` does for `%m` / `%d`. -/
def pad2 (n : Nat) : String :=
  if n < 10 then String.mk ['0', digitChar n] else pyStr n

/-- `os.path.splitext` for separator-free names (the sanitized base filenames
here never contain `/`): split at the last dot, unless every character before
that dot is itself a dot. -/
def pySplitext (s : String) : String × String :=
  let l := s.toList
  match l.reverse.findIdx? (fun c => c = '.') with
  | none => (s, "")
  | some j =>
    let i := l.length - 1 - j
    if (l.take i).all (fun c => c = '.') then (s, "")
    else (String.mk (l.take i), String.mk (l.drop i))

/-! ## `sanitize_filename`, `clean_text_for_filename`, `format_date` -/

/-- Characters kept by the safe-name filter in `create_filename`
(`c.isalnum() or c in "._-"`, ASCII model). -/
def safeChar (c : Char) : Bool :=
  c.isAlphanum || c = '.' || c = '_' || c = '-'

/-- The safe-name join in `create_filename`:
`"".join(c for c in name if c.isalnum() or c in "._-")`. -/
def safeJoin (s : String) : String :=
  String.mk (s.toList.filter safeChar)

/-- Regex `\w` at the ASCII level: alphanumeric or underscore. -/
def wordChar (c : Char) : Bool :=
  c.isAlphanum || c = '_'

/-- `sanitize_filename`: replace every character outside `[\w.-]` by `_`,
then cap the length at 100 keeping the extension. -/
def sanitize_filename (filename : String) : String :=
  let safe := String.mk (filename.toList.map
    (fun c => if wordChar c || c = '.' || c = '-' then c else '_'))
  if 100 < safe.length then
    let (name, ext) := pySplitext safe
    String.mk (name.toList.take 95) ++ ext
  else safe

/-- `clean_text_for_filename`: spaces and path separators become underscores,
then keep only alphanumerics, underscore and dash. -/
def clean_text_for_filename (text : String) : String :=
  if text = "" then ""
  else
    let cleaned := pyReplace (pyReplace (pyReplace text " " "_") "/" "_") "\\" "_"
    String.mk (cleaned.toList.filter (fun c => c.isAlphanum || c = '_' || c = '-'))

/-! ### `datetime.strptime` for the six formats used by `format_date`

CPython's `_strptime` compiles each directive to a regex alternation tried
left to right with backtracking (`%Y` = exactly four digits, `%m` =
`1[0-2]|0[1-9]|[1-9]`, `%d` = `3[01]|[12]\d|0[1-9]|[1-9]`, `%H` =
`2[0-3]|[0-1]\d|\d`, `%M`/`%S` = `[0-5]\d|\d`, `%f` = `[0-9]{1,6}` greedy),
requires the whole string to be consumed, and finally validates the date via
the `datetime` constructor (day must exist in the month).  We embed this with
a small nondeterministic parser whose candidate order mirrors the regex
backtracking order. -/

/-- Nondeterministic parser: all parses, in regex-backtracking order. -/
def NP (α : Type) : Type := List Char → List (α × List Char)

instance : Monad NP where
  pure a := fun s => [(a, s)]
  bind p f := fun s => ((p s).map (fun x => f x.1 x.2)).flatten

/-- Match one literal character. -/
def pLit (c : Char) : NP Unit := fun s =>
  match s with
  | x :: r => if x = c then [((), r)] else []
  | [] => []

def digitVal (c : Char) : Nat := c.toNat - 48

/-- `%Y`: exactly four digits. -/
def pYear4 : NP Nat := fun s =>
  match s with
  | a :: b :: c :: d :: r =>
    if a.isDigit && b.isDigit && c.isDigit && d.isDigit then
      [(((digitVal a * 10 + digitVal b) * 10 + digitVal c) * 10 + digitVal d, r)]
    else []
  | _ => []

/-- A two-digit alternative tried before a one-digit alternative (the order
used by all of `%m`, `%d`, `%H`, `%M`, `%S`). -/
def pTwoOne (ok2 : Char → Char → Bool) (ok1 : Char → Bool) : NP Nat := fun s =>
  match s with
  | a :: b :: r =>
    (if ok2 a b then [(digitVal a * 10 + digitVal b, r)] else []) ++
    (if ok1 a then [(digitVal a, b :: r)] else [])
  | [a] => if ok1 a then [(digitVal a, [])] else []
  | [] => []

/-- `%m`: `1[0-2]|0[1-9]|[1-9]`. -/
def pMonth : NP Nat :=
  pTwoOne
    (fun a b => (a = '1' && (b = '0' || b = '1' || b = '2')) ||
                (a = '0' && b.isDigit && b ≠ '0'))
    (fun a => a.isDigit && a ≠ '0')

/-- `%d`: `3[01]|[12]\d|0[1-9]|[1-9]`. -/
def pDay : NP Nat :=
  pTwoOne
    (fun a b => (a = '3' && (b = '0' || b = '1')) ||
                ((a = '1' || a = '2') && b.isDigit) ||
                (a = '0' && b.isDigit && b ≠ '0'))
    (fun a => a.isDigit && a ≠ '0')

/-- `%H`: `2[0-3]|[0-1]\d|\d`. -/
def pHour : NP Nat :=
  pTwoOne
    (fun a b => (a = '2' && (b = '0' || b = '1' || b = '2' || b = '3')) ||
                ((a = '0' || a = '1') && b.isDigit))
    Char.isDigit

/-- `%M` and `%S`: `[0-5]\d|\d`. -/
def pMinSec : NP Nat :=
  pTwoOne
    (fun a b => (a = '0' || a = '1' || a = '2' || a = '3' || a = '4' || a = '5') && b.isDigit)
    Char.isDigit

/-- `%f`: one to six digits, greedy (longest candidate first). -/
def pFrac : NP Unit := fun s =>
  let run := ((s.takeWhile Char.isDigit).take 6).length
  (List.range run).map (fun k => ((), s.drop (run - k)))

/-- `%Y-%m-%d`. -/
def fmtYmd : NP (Nat × Nat × Nat) := do
  let y ← pYear4
  let _ ← pLit '-'
  let m ← pMonth
  let _ ← pLit '-'
  let d ← pDay
  pure (y, m, d)

/-- `%m/%d/%Y`. -/
def fmtMdY : NP (Nat × Nat × Nat) := do
  let m ← pMonth
  let _ ← pLit '/'
  let d ← pDay
  let _ ← pLit '/'
  let y ← pYear4
  pure (y, m, d)

/-- `%d/%m/%Y`. -/
def fmtDmY : NP (Nat × Nat × Nat) := do
  let d ← pDay
  let _ ← pLit '/'
  let m ← pMonth
  let _ ← pLit '/'
  let y ← pYear4
  pure (y, m, d)

/-- `%H:%M:%S`, date part already consumed; the time values are validated by
their character classes alone, exactly as in `_strptime`. -/
def pTimeHMS : NP Unit := do
  let _ ← pHour
  let _ ← pLit ':'
  let _ ← pMinSec
  let _ ← pLit ':'
  let _ ← pMinSec
  pure ()

/-- `%Y-%m-%d %H:%M:%S`. -/
def fmtYmdSpHMS : NP (Nat × Nat × Nat) := do
  let ymd ← fmtYmd
  let _ ← pLit ' '
  let _ ← pTimeHMS
  pure ymd

/-- `%Y-%m-%dT%H:%M:%S`. -/
def fmtYmdTHMS : NP (Nat × Nat × Nat) := do
  let ymd ← fmtYmd
  let _ ← pLit 'T'
  let _ ← pTimeHMS
  pure ymd

/-- `%Y-%m-%dT%H:%M:%S.%f`. -/
def fmtYmdTHMSf : NP (Nat × Nat × Nat) := do
  let ymd ← fmtYmdTHMS
  let _ ← pLit '.'
  let _ ← pFrac
  pure ymd

def isLeapYear (y : Nat) : Bool :=
  y % 4 = 0 && (y % 100 ≠ 0 || y % 400 = 0)

def daysInMonth (y m : Nat) : Nat :=
  if m = 2 then (if isLeapYear y then 29 else 28)
  else if m = 4 || m = 6 || m = 9 || m = 11 then 30
  else 31

/-- The validation performed by the `datetime` constructor (`MINYEAR = 1`;
month and hour/minute/second ranges are already enforced by the regexes). -/
def validDate (y m d : Nat) : Bool :=
  1 ≤ y && 1 ≤ m && m ≤ 12 && 1 ≤ d && d ≤ daysInMonth y m

/-- Run one format: take the first full-string parse (regex preference
order), then validate it; an invalid date raises `ValueError` and therefore
fails this format. -/
def runFormat (p : NP (Nat × Nat × Nat)) (s : String) : Option (Nat × Nat × Nat) :=
  match ((p s.toList).filter (fun x => x.2.isEmpty)).head? with
  | some (ymd, _) => if validDate ymd.1 ymd.2.1 ymd.2.2 then some ymd else none
  | none => none

/-- The `for fmt in date_formats` loop of `format_date`: first format whose
`strptime` succeeds (a `ValueError`, including one from date validation, moves
on to the next format). -/
def strptimeChain (s : String) : Option (Nat × Nat × Nat) :=
  match runFormat fmtYmd s with
  | some r => some r
  | none =>
    match runFormat fmtMdY s with
    | some r => some r
    | none =>
      match runFormat fmtDmY s with
      | some r => some r
      | none =>
        match runFormat fmtYmdSpHMS s with
        | some r => some r
        | none =>
          match runFormat fmtYmdTHMS s with
          | some r => some r
          | none => runFormat fmtYmdTHMSf s

/-- `dt.strftime("%Y-%m-%d")` on Linux/glibc: the year is printed without
padding (all parsed years have four digits anyway), month and day are
zero-padded to two digits. -/
def strftimeYmd (y m d : Nat) : String :=
  pyStr y ++ "-" ++ pad2 m ++ "-" ++ pad2 d

/-- Match `(\d{4})-(\d{2})-(\d{2})` at the head of the character list,
returning the three digit groups. -/
def matchYmdAt (l : List Char) : Option (String × String × String) :=
  match l with
  | a :: b :: c :: d :: '-' :: e :: f :: '-' :: g :: h :: _ =>
    if a.isDigit && b.isDigit && c.isDigit && d.isDigit &&
       e.isDigit && f.isDigit && g.isDigit && h.isDigit then
      some (String.mk [a, b, c, d], String.mk [e, f], String.mk [g, h])
    else none
  | _ => none

/-- `re.search(r'(\d{4})-(\d{2})-(\d{2})', s)`: leftmost match. -/
def searchYmd (l : List Char) : Option (String × String × String) :=
  match l with
  | [] => none
  | _ :: rest =>
    match matchYmdAt l with
    | some t => some t
    | none => searchYmd rest

/-- `format_date`: empty input yields `""`; otherwise try the six `strptime`
formats on the stripped string, then a loose `YYYY-MM-DD` regex search on the
original string, else `""`. -/
def format_date (date_str : String) : String :=
  if date_str = "" then ""
  else
    match strptimeChain (pyStrip date_str) with
    | some (y, m, d) => strftimeYmd y m d
    | none =>
      match searchYmd date_str.toList with
      | some (a, b, c) => a ++ "-" ++ b ++ "-" ++ c
      | none => ""

/-! ## `create_filename` -/

/-- A submission record, modelled as an association list of string-valued
fields (`row_data.get(col, '')`). -/
abbrev Submission : Type := List (String × String)

/-- `create_filename`: returns the produced filename together with the value
stored into the mutable `self.current_form_naming_format` field by this call
(`"custom"` or `"fallback"`).  No exception can occur on string-valued
fields, so the `except` branch of the source is unreachable here. -/
def create_filename (row_data : Submission) (row_num : Nat) (base_filename : String)
    (date_column : String) (type_column : String) : String × String :=
  let date_value := (List.lookup date_column row_data).getD ""
  let receipt_type := (List.lookup type_column row_data).getD ""
  let formatted_date := format_date date_value
  let clean_receipt_type := clean_text_for_filename receipt_type
  let file_ext := if (pySplitext base_filename).2 = "" then ".jpg" else (pySplitext base_filename).2
  if formatted_date ≠ "" ∧ clean_receipt_type ≠ "" then
    (safeJoin (formatted_date ++ "_" ++ clean_receipt_type ++ "_" ++ pyStr row_num ++ file_ext),
     "custom")
  else
    (safeJoin ("row" ++ pyStr row_num ++ "_" ++ base_filename), "fallback")

/-! ## `is_file_already_uploaded` (DestinationIndex.isDuplicate) -/

/-- The `existing_files` dictionary: form-folder name → set of filenames
(the set is modelled by a list; only membership is ever used). -/
abbrev Catalog : Type := List (String × List String)

/-- The `_{row_num}{file_ext}` suffix computed by the custom-scheme branch of
`is_file_already_uploaded`: the last underscore-separated segment of the
filename is split at dots, `row_num` is the part before the first dot and
`file_ext` is a dot followed by the part between the first and second dots
(empty when the segment has no dot). -/
def richSuffix (filename : String) : String :=
  let row_num_part := (pySplit filename "_").getLastD ""
  let row_num := ((pySplit row_num_part ".").headD "")
  let file_ext :=
    if row_num_part.toList.contains '.' then "." ++ ((pySplit row_num_part ".").get? 1).getD ""
    else ""
  "_" ++ row_num ++ file_ext

/-- `is_file_already_uploaded(filename, form_name, existing_files)` with the
mutable `self.current_form_naming_format` passed explicitly.  The `try`
blocks of the source cannot raise on the guarded paths (the list accesses are
guarded by the length / startswith checks), so the `except` branches are
unreachable. -/
def is_file_already_uploaded (filename form_name current_format : String)
    (existing_files : Catalog) : Bool :=
  match List.lookup form_name existing_files with
  | none => false
  | some files =>
    if filename ∈ files then true
    else if current_format = "custom" then
      if 3 ≤ (pySplit filename "_").length then
        files.any (fun existing_file => pyEndsWith existing_file (richSuffix filename))
      else false
    else if current_format = "fallback" then
      if pyStartsWith filename "row" then
        let row_part := (pySplit filename "_").headD ""
        let row_num := strDrop row_part 3
        if files.any (fun existing_file => pyStartsWith existing_file ("row" ++ row_num ++ "_")) then
          true
        else if filename ∈ files then true
        else false
      else false
    else false

/-! ## The naming-format flag dataflow of `process_form_media`

`process_form_media` resets `self.current_form_naming_format` to
`"fallback"`, invokes `create_filename(first_submission, 1, "test.jpg")` once
to report the form's naming format, and then, for each attachment, invokes
`create_filename(submission, row_num, base_name)` — which overwrites the flag
— immediately before `is_file_already_uploaded` consults the flag.  The fold
below threads the flag exactly along that sequence; each trace entry records
the flag value consulted at that attachment's duplicate check together with
the check's result. -/

def processFormGo (form_name : String) (existing_files : Catalog) :
    String → List (Submission × Nat × String) → List (String × Bool)
  | _, [] => []
  | _, (submission, row_num, base_name) :: rest =>
    let r := create_filename submission row_num base_name "Date" "Receipt_Type"
    (r.2, is_file_already_uploaded r.1 form_name r.2 existing_files) ::
      processFormGo form_name existing_files r.2 rest

/-- Flag/duplicate-check trace of `process_form_media` over one form:
`data` is the fetched submission list (its head feeds the naming-format
check), `attachments` lists the per-attachment `create_filename` inputs in
processing order. -/
def processFormFlagTrace (data : List Submission)
    (attachments : List (Submission × Nat × String))
    (form_name : String) (existing_files : Catalog) : List (String × Bool) :=
  let flag0 := "fallback"
  let flag1 :=
    match data with
    | [] => flag0
    | first_submission :: _ => (create_filename first_submission 1 "test.jpg" "Date" "Receipt_Type").2
  processFormGo form_name existing_files flag1 attachments

/-! ## JSON values and `json.loads`

`parse_attachments` relies on `json.loads`; we embed a JSON value type and a
recursive-descent parser.  Numbers with a fraction or exponent (and the
non-standard `NaN` / `Infinity` literals accepted by `json.loads`) are kept
as their source lexeme, since the pipeline only ever tests them for
truthiness; integers are parsed exactly.  `\uXXXX` escapes are mapped through
`Char.ofNat` (surrogate halves, which CPython would pair up, fall to the null
character — no claim exercises them).  Duplicate object keys keep the last
value at the first key's position, as `dict` insertion does. -/

inductive Jval where
  | null : Jval
  | bool : Bool → Jval
  | num : Int → Jval
  | fnum : String → Jval
  | str : String → Jval
  | arr : List Jval → Jval
  | obj : List (String × Jval) → Jval

/-- Python truthiness of a parsed JSON value. -/
def jtruthy : Jval → Bool
  | Jval.null => false
  | Jval.bool b => b
  | Jval.num n => n ≠ 0
  | Jval.fnum lexeme => !(lexeme.toList.all (fun c => c = '0' || c = '.' || c = '-' ||
      c = 'e' || c = 'E' || c = '+'))
  | Jval.str s => s ≠ ""
  | Jval.arr l => !l.isEmpty
  | Jval.obj l => !l.isEmpty

/-- JSON whitespace skipped by `json.loads`. -/
def jsonWs (c : Char) : Bool := c = ' ' || c = '\t' || c = '\n' || c = '\r'

def skipWs (s : List Char) : List Char := s.dropWhile jsonWs

def hexVal (c : Char) : Option Nat :=
  if c.isDigit then some (c.toNat - 48)
  else if 'a' ≤ c && c ≤ 'f' then some (c.toNat - 87)
  else if 'A' ≤ c && c ≤ 'F' then some (c.toNat - 55)
  else none

/-- JSON string body parser (after the opening quote); strict mode rejects
raw control characters. -/
def parseJStrAux (acc : List Char) : List Char → Option (String × List Char)
  | '"' :: rest => some (String.mk acc.reverse, rest)
  | '\\' :: '"' :: rest => parseJStrAux ('"' :: acc) rest
  | '\\' :: '\\' :: rest => parseJStrAux ('\\' :: acc) rest
  | '\\' :: '/' :: rest => parseJStrAux ('/' :: acc) rest
  | '\\' :: 'b' :: rest => parseJStrAux ('\x08' :: acc) rest
  | '\\' :: 'f' :: rest => parseJStrAux ('\x0c' :: acc) rest
  | '\\' :: 'n' :: rest => parseJStrAux ('\n' :: acc) rest
  | '\\' :: 'r' :: rest => parseJStrAux ('\r' :: acc) rest
  | '\\' :: 't' :: rest => parseJStrAux ('\t' :: acc) rest
  | '\\' :: 'u' :: h1 :: h2 :: h3 :: h4 :: rest =>
    match hexVal h1, hexVal h2, hexVal h3, hexVal h4 with
    | some a, some b, some c, some d =>
      parseJStrAux (Char.ofNat (((a * 16 + b) * 16 + c) * 16 + d) :: acc) rest
    | _, _, _, _ => none
  | '\\' :: _ => none
  | c :: rest => if c.toNat < 32 then none else parseJStrAux (c :: acc) rest
  | [] => none

def parseJStr (s : List Char) : Option (String × List Char) := parseJStrAux [] s

def digitsOf (s : List Char) : List Char × List Char :=
  (s.takeWhile Char.isDigit, s.dropWhile Char.isDigit)

def natOfDigits (l : List Char) : Nat :=
  l.foldl (fun a c => a * 10 + (c.toNat - 48)) 0

/-- JSON number parser: `-? (0 | [1-9][0-9]*) (\.[0-9]+)? ([eE][+-]?[0-9]+)?`;
a number with fraction or exponent is kept as its lexeme (`float`), otherwise
the exact integer is produced. -/
def parseJNum (s : List Char) : Option (Jval × List Char) :=
  let (negChars, s1) := match s with
    | '-' :: r => (['-'], r)
    | _ => (([] : List Char), s)
  let intPart : Option (List Char × List Char) :=
    match s1 with
    | '0' :: r => some (['0'], r)
    | c :: _ =>
      if c.isDigit then
        let (ds, r) := digitsOf s1
        some (ds, r)
      else none
    | [] => none
  match intPart with
  | none => none
  | some (intDigits, r2) =>
    let (fracChars, r3) :=
      match r2 with
      | '.' :: t =>
        match t with
        | c :: _ =>
          if c.isDigit then
            let (ds, r) := digitsOf t
            ('.' :: ds, r)
          else (([] : List Char), r2)
        | [] => (([] : List Char), r2)
      | _ => (([] : List Char), r2)
    let (expChars, r4) :=
      match r3 with
      | e :: t =>
        if e = 'e' || e = 'E' then
          let (signChars, t2) := match t with
            | '+' :: u => (['+'], u)
            | '-' :: u => (['-'], u)
            | _ => (([] : List Char), t)
          match t2 with
          | c :: _ =>
            if c.isDigit then
              let (ds, r) := digitsOf t2
              (e :: signChars ++ ds, r)
            else (([] : List Char), r3)
          | [] => (([] : List Char), r3)
        else (([] : List Char), r3)
      | [] => (([] : List Char), r3)
    if fracChars.isEmpty && expChars.isEmpty then
      let v : Int := natOfDigits intDigits
      some (Jval.num (if negChars.isEmpty then v else -v), r2)
    else
      some (Jval.fnum (String.mk (negChars ++ intDigits ++ fracChars ++ expChars)), r4)

/-- `dict` insertion: overwrite an existing key in place, else append. -/
def insertKV (l : List (String × Jval)) (k : String) (v : Jval) : List (String × Jval) :=
  match l with
  | [] => [(k, v)]
  | (k', v') :: rest => if k' = k then (k', v) :: rest else (k', v') :: insertKV rest k v

mutual

def parseJVal : Nat → List Char → Option (Jval × List Char)
  | 0, _ => none
  | fuel + 1, s =>
    let s := skipWs s
    match s with
    | '{' :: rest =>
      let r := skipWs rest
      match r with
      | '}' :: rest' => some (Jval.obj [], rest')
      | _ => parseJObj fuel r []
    | '[' :: rest =>
      let r := skipWs rest
      match r with
      | ']' :: rest' => some (Jval.arr [], rest')
      | _ => parseJArr fuel r []
    | '"' :: rest =>
      match parseJStr rest with
      | some (str, r) => some (Jval.str str, r)
      | none => none
    | 't' :: 'r' :: 'u' :: 'e' :: rest => some (Jval.bool true, rest)
    | 'f' :: 'a' :: 'l' :: 's' :: 'e' :: rest => some (Jval.bool false, rest)
    | 'n' :: 'u' :: 'l' :: 'l' :: rest => some (Jval.null, rest)
    | 'N' :: 'a' :: 'N' :: rest => some (Jval.fnum "NaN", rest)
    | 'I' :: 'n' :: 'f' :: 'i' :: 'n' :: 'i' :: 't' :: 'y' :: rest =>
      some (Jval.fnum "Infinity", rest)
    | '-' :: 'I' :: 'n' :: 'f' :: 'i' :: 'n' :: 'i' :: 't' :: 'y' :: rest =>
      some (Jval.fnum "-Infinity", rest)
    | _ => parseJNum s

def parseJArr : Nat → List Char → List Jval → Option (Jval × List Char)
  | 0, _, _ => none
  | fuel + 1, s, acc =>
    match parseJVal fuel s with
    | none => none
    | some (v, rest) =>
      match skipWs rest with
      | ',' :: r2 => parseJArr fuel r2 (acc ++ [v])
      | ']' :: r2 => some (Jval.arr (acc ++ [v]), r2)
      | _ => none

def parseJObj : Nat → List Char → List (String × Jval) → Option (Jval × List Char)
  | 0, _, _ => none
  | fuel + 1, s, acc =>
    match s with
    | '"' :: rest =>
      match parseJStr rest with
      | none => none
      | some (key, r1) =>
        match skipWs r1 with
        | ':' :: r2 =>
          match parseJVal fuel r2 with
          | none => none
          | some (v, r3) =>
            match skipWs r3 with
            | ',' :: r4 => parseJObj fuel (skipWs r4) (insertKV acc key v)
            | '}' :: r4 => some (Jval.obj (insertKV acc key v), r4)
            | _ => none
        | _ => none
    | _ => none

end

/-- `json.loads`: parse one value and require only whitespace to remain. -/
def jsonParse (s : String) : Option Jval :=
  match parseJVal (4 * (s.length + 1)) s.toList with
  | some (v, rest) => if (skipWs rest).isEmpty then some v else none
  | none => none

/-! ## `extract_urls_fallback` and `parse_attachments` -/

/-- The character class `[^\s,\'"}\]]` of the URL regex. -/
def urlChar (c : Char) : Bool :=
  !(pyIsSpace c || c = ',' || c = '\'' || c = '"' || c = '\x7d' || c = ']')

/-- Match the regex `https?://[^\s,\'"}\]]+(?:\.[^\s,\'"}\]]+)+` at the head
of `l`.  After the scheme, the greedy run `R` of allowed characters is the
candidate; since `.` itself belongs to the class, backtracking succeeds on
the whole run exactly when `R` has a dot that is neither its first nor its
last character, and fails for every shorter prefix otherwise. -/
def matchUrlAt (l : List Char) : Option (String × List Char) :=
  match l with
  | 'h' :: 't' :: 't' :: 'p' :: rest =>
    let scheme : Option (List Char × List Char) :=
      match rest with
      | 's' :: ':' :: '/' :: '/' :: r => some (['h', 't', 't', 'p', 's', ':', '/', '/'], r)
      | ':' :: '/' :: '/' :: r => some (['h', 't', 't', 'p', ':', '/', '/'], r)
      | _ => none
    match scheme with
    | none => none
    | some (schemeChars, afterScheme) =>
      let run := afterScheme.takeWhile urlChar
      if ((run.drop 1).dropLast).any (fun c => c = '.') then
        some (String.mk (schemeChars ++ run), afterScheme.drop run.length)
      else none
  | _ => none

/-- `re.findall` for the URL pattern: leftmost, non-overlapping matches. -/
def findUrls : Nat → List Char → List String
  | 0, _ => []
  | fuel + 1, l =>
    match matchUrlAt l with
    | some (url, rest) => url :: findUrls fuel rest
    | none =>
      match l with
      | [] => []
      | _ :: rest => findUrls fuel rest

def mediaExtensions : List String := [".jpg", ".jpeg", ".png", ".gif", ".pdf", ".mp4"]

/-- The `filename` entry built by `extract_urls_fallback`:
`url.split('/')[-1].split('?')[0] or 'media_file'`. -/
def fallbackFilename (url : String) : String :=
  let fn := (pySplit ((pySplit url "/").getLastD "") "?").headD ""
  if fn = "" then "media_file" else fn

/-- `extract_urls_fallback`: scan the raw text for URL-shaped substrings,
clean trailing `\\`, `"`, `'`, and keep those containing a known media
extension. -/
def extract_urls_fallback (text : String) : List Jval :=
  let found := findUrls text.toList.length text.toList
  found.filterMap (fun raw =>
    let url := pyRstrip (pyRstrip (pyRstrip raw ['\\']) ['"']) ['\'']
    if mediaExtensions.any (fun ext => strContains (pyToLower url) ext) then
      some (Jval.obj [("download_url", Jval.str url),
                      ("filename", Jval.str (fallbackFilename url))])
    else none)

/-- The quote-stripping and unescaping preamble of `parse_attachments`. -/
def cleanedAttachmentStr (attachments_str : String) : String :=
  let cleaned0 := pyStrip attachments_str
  let cleaned1 :=
    if pyStartsWith cleaned0 "[" && pyEndsWith cleaned0 "]" then cleaned0
    else if pyStartsWith cleaned0 "\"[" && pyEndsWith cleaned0 "]\"" then pySlice1 cleaned0
    else if pyStartsWith cleaned0 "\"" && pyEndsWith cleaned0 "\"" then pySlice1 cleaned0
    else cleaned0
  pyReplace (pyReplace cleaned1 "\\\"" "\"") "\\/" "/"

/-- The result normalisation of `parse_attachments`: a dict becomes a
singleton list, a list is kept, anything else yields `[]`. -/
def normalizeParsed : Jval → List Jval
  | Jval.obj kvs => [Jval.obj kvs]
  | Jval.arr l => l
  | _ => []

/-- The structured-parsing stage of `parse_attachments`: `json.loads` on the
cleaned string, then once more after replacing single quotes by double
quotes; `none` means both parses failed and the URL-scan fallback runs. -/
def structuredParse (attachments_str : String) : Option (List Jval) :=
  let cleaned := cleanedAttachmentStr attachments_str
  match jsonParse cleaned with
  | some v => some (normalizeParsed v)
  | none =>
    match jsonParse (pyReplace cleaned "'" "\"") with
    | some v => some (normalizeParsed v)
    | none => none

/-- `parse_attachments`: empty / whitespace-only / literal `"nan"` input
yields `[]`; otherwise structured parsing, falling back to the URL scan.
Nothing on this path can raise, so the outer `except` branch (which also
falls back to the URL scan) is unreachable. -/
def parse_attachments (attachments_str : String) : List Jval :=
  if attachments_str = "" || pyStrip attachments_str = "" || attachments_str = "nan" then []
  else
    match structuredParse attachments_str with
    | some l => l
    | none => extract_urls_fallback attachments_str

/-- The `for key in url_keys` loop of `get_download_url`: first key that is
present with a truthy value. -/
def firstTruthyKey (kvs : List (String × Jval)) : List String → Option Jval
  | [] => none
  | key :: rest =>
    match List.lookup key kvs with
    | some v => if jtruthy v then some v else firstTruthyKey kvs rest
    | none => firstTruthyKey kvs rest

/-- `get_download_url` with its priority list
`['download_large_url', 'download_url', 'download_medium_url']`.  (On a
non-dict attachment the Python code either finds no key or raises
`TypeError`, which the caller swallows; neither produces a candidate,
modelled as `none`.) -/
def get_download_url (attachment : Jval) : Option Jval :=
  match attachment with
  | Jval.obj kvs => firstTruthyKey kvs ["download_large_url", "download_url", "download_medium_url"]
  | _ => none

/-- `att.get('filename', f'media_{row_num}')` for the candidates collected in
`process_form_media`. -/
def attachmentFilename (attachment : Jval) (row_num : Nat) : Jval :=
  match attachment with
  | Jval.obj kvs =>
    match List.lookup "filename" kvs with
    | some v => v
    | none => Jval.str ("media_" ++ pyStr row_num)
  | _ => Jval.str ("media_" ++ pyStr row_num)

/-- The candidate list built from one field value by the JSON branch of
`process_form_media` (lines 513–520): each parsed attachment with a truthy
download URL yields the pair (URL, suggested filename). -/
def extractCandidates (value_str : String) (row_num : Nat) : List (Jval × Jval) :=
  (parse_attachments value_str).filterMap (fun att =>
    match get_download_url att with
    | some url => some (url, attachmentFilename att row_num)
    | none => none)

/-! ## `stream_media_to_sharepoint` (StreamTransferEngine)

The engine is embedded as a pure function of an abstract HTTP environment:
`koboOk = false` models any exception raised inside the `try` block (source
connection failure, timeout, a failed `raise_for_status`); `contentLength`
models the source's `Content-Length` header when present and well-formed;
`bodyLen` is the number of bytes the source body actually contains;
`putStatus` is the destination's response status to the direct
`PUT …:/content` request (used both on the small-file path and on the
session-failure fallback — it is the same request in both branches);
`sessionStatus` is the response status of `createUploadSession`; and
`chunkStatus i` is the response status for the `i`-th chunk `PUT`. -/

structure TransferStats where
  total_media : Nat
  transferred : Nat
  failed : Nat
  skipped : Nat
  total_size : Nat
deriving DecidableEq

structure TransferEnv where
  koboOk : Bool
  contentLength : Option Nat
  bodyLen : Nat
  putStatus : Nat
  sessionStatus : Nat
  chunkStatus : Nat → Nat

/-- Which upload strategy the call ended up executing. -/
inductive UploadPath where
  | direct : UploadPath
  | sessionFallback : UploadPath
  | chunked : UploadPath
  | error : UploadPath
deriving DecidableEq

structure TransferResult where
  ok : Bool
  stats : TransferStats
  path : UploadPath
  chunkRequests : List (Nat × Nat)

def CHUNK_SIZE : Nat := 320 * 1024

def SMALL_THRESHOLD : Nat := 4 * 1024 * 1024

/-- The chunk lengths produced by `iter_content(chunk_size=320*1024)` over a
body of `n` bytes (empty chunks are skipped by `if chunk:`); the fuel bounds
the chunk count, for structural recursion. -/
def chunkSizesAux : Nat → Nat → List Nat
  | 0, _ => []
  | fuel + 1, n =>
    if n = 0 then []
    else if n ≤ CHUNK_SIZE then [n]
    else CHUNK_SIZE :: chunkSizesAux fuel (n - CHUNK_SIZE)

def chunkSizes (n : Nat) : List Nat := chunkSizesAux (n / CHUNK_SIZE + 1) n

/-- The chunk-upload loop: issue one `PUT` per chunk with the running offset,
abort on the first response outside {200, 201, 202}.  Returns whether every
chunk was acknowledged, together with the `(offset, length)` of each request
actually issued. -/
def uploadChunks (chunkStatus : Nat → Nat) : List Nat → Nat → Nat → Bool × List (Nat × Nat)
  | [], _, _ => (true, [])
  | size :: rest, idx, offset =>
    if chunkStatus idx = 200 || chunkStatus idx = 201 || chunkStatus idx = 202 then
      let r := uploadChunks chunkStatus rest (idx + 1) (offset + size)
      (r.1, (offset, size) :: r.2)
    else (false, [(offset, size)])

/-- The direct full-buffer upload (`self.sp_session.put(upload_url,
data=content)` plus the status check and counter updates); the code block is
duplicated verbatim in the source for the small-file path and the
session-failure fallback. -/
def directUploadOutcome (env : TransferEnv) (stats : TransferStats) : Bool × TransferStats :=
  if env.putStatus = 200 || env.putStatus = 201 then
    (true, { stats with transferred := stats.transferred + 1,
                        total_size := stats.total_size + env.bodyLen })
  else
    (false, { stats with failed := stats.failed + 1 })

/-- The small-file test `content_length and int(content_length) < 4*1024*1024`
(an absent header is falsy). -/
def reportsSmall (contentLength : Option Nat) : Bool :=
  match contentLength with
  | some n => decide (n < SMALL_THRESHOLD)
  | none => false

/-- `stream_media_to_sharepoint`, over the abstract environment. -/
def stream_media_to_sharepoint (env : TransferEnv) (stats : TransferStats) : TransferResult :=
  if env.koboOk = false then
    { ok := false, stats := { stats with failed := stats.failed + 1 },
      path := UploadPath.error, chunkRequests := [] }
  else if reportsSmall env.contentLength then
    let r := directUploadOutcome env stats
    { ok := r.1, stats := r.2, path := UploadPath.direct, chunkRequests := [] }
  else if env.sessionStatus ≠ 200 then
    let r := directUploadOutcome env stats
    { ok := r.1, stats := r.2, path := UploadPath.sessionFallback, chunkRequests := [] }
  else
    let file_size := match env.contentLength with
      | some n => n
      | none => 0
    let r := uploadChunks env.chunkStatus (chunkSizes env.bodyLen) 0 0
    if r.1 then
      { ok := true,
        stats := { stats with transferred := stats.transferred + 1,
                              total_size := stats.total_size + file_size },
        path := UploadPath.chunked, chunkRequests := r.2 }
    else
      { ok := false, stats := { stats with failed := stats.failed + 1 },
        path := UploadPath.chunked, chunkRequests := r.2 }

/-- The byte ranges of a request list are consecutive from `start`: each
request's offset is the previous offset plus the previous length. -/
def consecutiveFrom : Nat → List (Nat × Nat) → Prop
  | _, [] => True
  | start, (offset, len) :: rest => offset = start ∧ consecutiveFrom (offset + len) rest

/-! ## Claim C1 -/

/-- C1: for every catalog mapping the form's folder name to a set of
filenames, `is_file_already_uploaded` returns true whenever the queried
filename is present verbatim in that set (under any scheme flag), and, when
the current scheme is rich (`"custom"`), also returns true whenever the
queried filename parses as `{date}_{category}_{row}{ext}` (at least three
underscore-separated segments) and some cataloged filename ends with the
literal suffix `_{row}{ext}` extracted from its last underscore-separated
segment — even if the date/category prefix differs. -/
theorem is_file_already_uploaded_spec
    (filename form_name : String) (files : List String) (existing_files : Catalog)
    (hcat : List.lookup form_name existing_files = some files) :
    (filename ∈ files →
      ∀ current_format,
        is_file_already_uploaded filename form_name current_format existing_files = true)
    ∧ (3 ≤ (pySplit filename "_").length →
       (∃ existing_file ∈ files, pyEndsWith existing_file (richSuffix filename) = true) →
       is_file_already_uploaded filename form_name "custom" existing_files = true) := by
  unfold is_file_already_uploaded
  rw [hcat]
  constructor
  · intro hmem current_format
    simp [hmem]
  · intro hlen hex
    by_cases hmem : filename ∈ files
    · simp [hmem]
    · dsimp only
      rw [if_neg hmem, if_pos rfl, if_pos hlen, List.any_eq_true]
      obtain ⟨ef, hef, hends⟩ := hex
      exact ⟨ef, hef, hends⟩

/-- C1 witness: `2025-02-02_Fuel_7.jpg` is flagged as a duplicate of the
cataloged `2025-01-01_Food_7.jpg` (same row and extension, different
date/category prefix). -/
theorem is_file_already_uploaded_spec_witness :
    is_file_already_uploaded "2025-02-02_Fuel_7.jpg" "F" "custom"
      [("F", ["2025-01-01_Food_7.jpg"])] = true :=
  (is_file_already_uploaded_spec "2025-02-02_Fuel_7.jpg" "F"
      ["2025-01-01_Food_7.jpg"] [("F", ["2025-01-01_Food_7.jpg"])] rfl).2
    (by decide) ⟨"2025-01-01_Food_7.jpg", by decide, by decide⟩

/-! ## Claim C2 -/

/-- C2 counterexample: the naming-format flag is not per-form.  For a form
whose first submission has usable date/category fields, the flag from the
first-submission check reads `"custom"`; yet the duplicate check for an
attachment of a second submission lacking those fields runs with the flag
`"fallback"` — overwritten by that attachment's own `create_filename` call —
and answers `true` (skip) on a catalog on which the form-level `"custom"`
scheme would have answered `false`. -/
theorem naming_scheme_per_form_counterexample :
    (create_filename [("Date", "2025-06-26"), ("Receipt_Type", "Fuel")] 1 "test.jpg"
        "Date" "Receipt_Type").2 = "custom"
    ∧ processFormFlagTrace
        [[("Date", "2025-06-26"), ("Receipt_Type", "Fuel")], []]
        [([("Date", "2025-06-26"), ("Receipt_Type", "Fuel")], 1, "a.jpg"), ([], 2, "a.jpg")]
        "FormA" [("FormA", ["row2_other.png"])]
      = [("custom", false), ("fallback", true)]
    ∧ is_file_already_uploaded
        (create_filename ([] : Submission) 2 "a.jpg" "Date" "Receipt_Type").1
        "FormA" "custom" [("FormA", ["row2_other.png"])] = false :=
  ⟨rfl, rfl, rfl⟩

theorem processFormGo_eq_map (form_name : String) (existing_files : Catalog)
    (flag : String) (attachments : List (Submission × Nat × String)) :
    processFormGo form_name existing_files flag attachments =
      attachments.map (fun a =>
        let r := create_filename a.1 a.2.1 a.2.2 "Date" "Receipt_Type"
        (r.2, is_file_already_uploaded r.1 form_name r.2 existing_files)) := by
  induction attachments generalizing flag with
  | nil => rfl
  | cons a rest ih =>
    obtain ⟨submission, row_num, base_name⟩ := a
    simp [processFormGo, ih]

/-- C2 (amended): the naming-format flag is effectively per-attachment.
Every `create_filename` call overwrites it, so the scheme consulted at each
attachment's duplicate check is exactly the scheme produced by that
attachment's own filename derivation — independent of the form's first
submission (and of any earlier flag value): the whole trace is a pointwise
map over the attachments, with `data` not occurring on the right-hand side. -/
theorem naming_scheme_per_attachment
    (data : List Submission) (attachments : List (Submission × Nat × String))
    (form_name : String) (existing_files : Catalog) :
    processFormFlagTrace data attachments form_name existing_files =
      attachments.map (fun a =>
        let r := create_filename a.1 a.2.1 a.2.2 "Date" "Receipt_Type"
        (r.2, is_file_already_uploaded r.1 form_name r.2 existing_files)) := by
  unfold processFormFlagTrace
  exact processFormGo_eq_map form_name existing_files _ attachments

/-! ## Claim C3 -/

theorem digitChar_isDigit (d : Nat) : (digitChar d).isDigit = true := by
  unfold digitChar
  split <;> decide

theorem safeChar_of_isDigit {c : Char} (h : c.isDigit = true) : safeChar c = true := by
  simp [safeChar, Char.isAlphanum, h]

theorem natDigitsAux_chars (fuel n : Nat) :
    ∀ c ∈ natDigitsAux fuel n, c.isDigit = true := by
  induction fuel generalizing n with
  | zero => intro c hc; simp [natDigitsAux] at hc
  | succ fuel ih =>
    intro c hc
    unfold natDigitsAux at hc
    split at hc
    · simp at hc
      subst hc
      exact digitChar_isDigit n
    · simp at hc
      rcases hc with h | h
      · exact ih _ _ h
      · subst h
        exact digitChar_isDigit _

theorem pyStr_chars (n : Nat) : ∀ c ∈ (pyStr n).toList, c.isDigit = true := by
  intro c hc
  exact natDigitsAux_chars _ _ c hc

theorem pad2_chars (n : Nat) : ∀ c ∈ (pad2 n).toList, c.isDigit = true := by
  intro c hc
  unfold pad2 at hc
  split at hc
  · simp at hc
    rcases hc with h | h
    · subst h; decide
    · subst h; exact digitChar_isDigit n
  · exact pyStr_chars n c hc

theorem toList_append (a b : String) : (a ++ b).toList = a.toList ++ b.toList := rfl

theorem strftimeYmd_chars (y m d : Nat) :
    ∀ c ∈ (strftimeYmd y m d).toList, c.isDigit = true ∨ c = '-' := by
  intro c hc
  unfold strftimeYmd at hc
  rw [toList_append, toList_append, toList_append, toList_append] at hc
  simp only [List.mem_append] at hc
  rcases hc with ((((h | h) | h) | h) | h)
  · exact Or.inl (pyStr_chars y c h)
  · simp at h; subst h; exact Or.inr rfl
  · exact Or.inl (pad2_chars m c h)
  · simp at h; subst h; exact Or.inr rfl
  · exact Or.inl (pad2_chars d c h)

theorem matchYmdAt_chars (l : List Char) (a b c : String)
    (h : matchYmdAt l = some (a, b, c)) :
    (∀ x ∈ a.toList, x.isDigit = true) ∧ (∀ x ∈ b.toList, x.isDigit = true) ∧
    (∀ x ∈ c.toList, x.isDigit = true) := by
  unfold matchYmdAt at h
  split at h
  case _ c1 c2 c3 c4 c5 c6 c7 c8 rest =>
    split at h
    case isTrue hd =>
      simp only [Option.some.injEq, Prod.mk.injEq] at h
      obtain ⟨ha, hb, hc⟩ := h
      subst ha; subst hb; subst hc
      simp only [Bool.and_eq_true] at hd
      refine ⟨?_, ?_, ?_⟩ <;> intro x hx <;> simp at hx
      · rcases hx with h | h | h | h <;> subst h <;> tauto
      · rcases hx with h | h <;> subst h <;> tauto
      · rcases hx with h | h <;> subst h <;> tauto
    case isFalse => exact absurd h (by simp)
  case _ => exact absurd h (by simp)

theorem searchYmd_chars (l : List Char) (a b c : String)
    (h : searchYmd l = some (a, b, c)) :
    (∀ x ∈ a.toList, x.isDigit = true) ∧ (∀ x ∈ b.toList, x.isDigit = true) ∧
    (∀ x ∈ c.toList, x.isDigit = true) := by
  induction l with
  | nil => simp [searchYmd] at h
  | cons hd tl ih =>
    unfold searchYmd at h
    cases hm : matchYmdAt (hd :: tl) with
    | some t =>
      rw [hm] at h
      simp at h
      obtain ⟨t1, t2⟩ := t
      cases h
      exact matchYmdAt_chars _ _ _ _ hm
    | none =>
      rw [hm] at h
      exact ih h

theorem format_date_chars (s : String) :
    ∀ c ∈ (format_date s).toList, safeChar c = true := by
  intro c hc
  unfold format_date at hc
  split at hc
  · simp at hc
  · revert hc
    split
    case _ y m d heq =>
      intro hc
      rcases strftimeYmd_chars y m d c hc with h | h
      · exact safeChar_of_isDigit h
      · subst h; decide
    case _ =>
      split
      case _ a b c' heq =>
        intro hc
        rw [toList_append, toList_append, toList_append, toList_append] at hc
        simp only [List.mem_append] at hc
        obtain ⟨ha, hb, hc'⟩ := searchYmd_chars _ _ _ _ heq
        rcases hc with ((((h | h) | h) | h) | h)
        · exact safeChar_of_isDigit (ha c h)
        · simp at h; subst h; decide
        · exact safeChar_of_isDigit (hb c h)
        · simp at h; subst h; decide
        · exact safeChar_of_isDigit (hc' c h)
      case _ =>
        intro hc
        simp at hc

theorem string_mk_toList (s : String) : String.mk s.toList = s := rfl

theorem safeJoin_eq_self (s : String) (h : ∀ c ∈ s.toList, safeChar c = true) :
    safeJoin s = s := by
  unfold safeJoin
  rw [List.filter_eq_self.mpr h]
  exact string_mk_toList s

theorem clean_text_chars (t : String) :
    ∀ c ∈ (clean_text_for_filename t).toList, safeChar c = true := by
  intro c hc
  unfold clean_text_for_filename at hc
  split at hc
  · simp at hc
  · simp only [String.toList] at hc
    have := List.of_mem_filter hc
    simp only [Bool.or_eq_true] at this
    rcases this with (h | h) | h
    · simp [safeChar, h]
    · simp [safeChar, h]
    · simp [safeChar, h]

theorem pySplitext_snd_chars (s : String) :
    ∀ c ∈ (pySplitext s).2.toList, c ∈ s.toList := by
  intro c hc
  unfold pySplitext at hc
  dsimp only at hc
  cases hfind : List.findIdx? (fun c => decide (c = '.')) s.toList.reverse with
  | none =>
    rw [hfind] at hc
    simp at hc
  | some j =>
    rw [hfind] at hc
    dsimp only at hc
    split at hc
    · simp at hc
    · exact List.drop_subset _ _ hc

theorem fileExt_chars (base : String) (hbase : ∀ c ∈ base.toList, safeChar c = true) :
    ∀ c ∈ (if (pySplitext base).2 = "" then ".jpg" else (pySplitext base).2).toList,
      safeChar c = true := by
  intro c hc
  split at hc
  · fin_cases hc <;> decide
  · exact hbase c (pySplitext_snd_chars base c hc)

/-- C3: for every submission record, row number and sanitized base filename
(every character alphanumeric or in `._-`), `create_filename` produces
`{date}_{category}_{row}{ext}` and reports the rich scheme (`"custom"`)
exactly when both the normalized date and the normalized category are
non-empty, and otherwise produces `row{N}_{base}` and reports the fallback
scheme. -/
theorem create_filename_spec (row_data : Submission) (row_num : Nat) (base_filename : String)
    (hbase : ∀ c ∈ base_filename.toList, safeChar c = true) :
    (format_date ((List.lookup "Date" row_data).getD "") ≠ "" ∧
       clean_text_for_filename ((List.lookup "Receipt_Type" row_data).getD "") ≠ "" →
      create_filename row_data row_num base_filename "Date" "Receipt_Type" =
        (format_date ((List.lookup "Date" row_data).getD "") ++ "_" ++
           clean_text_for_filename ((List.lookup "Receipt_Type" row_data).getD "") ++ "_" ++
           pyStr row_num ++
           (if (pySplitext base_filename).2 = "" then ".jpg" else (pySplitext base_filename).2),
         "custom"))
    ∧ (format_date ((List.lookup "Date" row_data).getD "") = "" ∨
       clean_text_for_filename ((List.lookup "Receipt_Type" row_data).getD "") = "" →
      create_filename row_data row_num base_filename "Date" "Receipt_Type" =
        ("row" ++ pyStr row_num ++ "_" ++ base_filename, "fallback")) := by
  constructor
  · intro h
    unfold create_filename
    rw [if_pos h]
    congr 1
    apply safeJoin_eq_self
    intro c hc
    simp only [toList_append, List.mem_append] at hc
    rcases hc with (((((hc | hc) | hc) | hc) | hc) | hc)
    · exact format_date_chars _ c hc
    · simp at hc; subst hc; decide
    · exact clean_text_chars _ c hc
    · simp at hc; subst hc; decide
    · exact safeChar_of_isDigit (pyStr_chars row_num c hc)
    · exact fileExt_chars base_filename hbase c hc
  · intro h
    unfold create_filename
    rw [if_neg (by tauto)]
    congr 1
    apply safeJoin_eq_self
    intro c hc
    simp only [toList_append, List.mem_append] at hc
    rcases hc with (((hc | hc) | hc) | hc)
    · simp at hc
      rcases hc with hc | hc | hc <;> subst hc <;> decide
    · exact safeChar_of_isDigit (pyStr_chars row_num c hc)
    · simp at hc; subst hc; decide
    · exact hbase c hc

/-- C3 witness: a submission with a parseable date and category yields the
rich filename `2025-06-26_Fuel_Receipt_3.jpg` and the `"custom"` flag. -/
theorem create_filename_spec_witness :
    create_filename [("Date", "2025-06-26"), ("Receipt_Type", "Fuel Receipt")] 3 "photo.jpg"
        "Date" "Receipt_Type" = ("2025-06-26_Fuel_Receipt_3.jpg", "custom") :=
  ((create_filename_spec [("Date", "2025-06-26"), ("Receipt_Type", "Fuel Receipt")] 3
      "photo.jpg" (by decide)).1 ⟨by decide, by decide⟩).trans (by decide)

/-! ## Claims C4, C5, C6, C9, C10 -/

theorem uploadChunks_consecutive (chunkStatus : Nat → Nat) (sizes : List Nat)
    (idx offset : Nat) :
    consecutiveFrom offset (uploadChunks chunkStatus sizes idx offset).2 := by
  induction sizes generalizing idx offset with
  | nil => simp [uploadChunks, consecutiveFrom]
  | cons size rest ih =>
    unfold uploadChunks
    split
    · exact ⟨rfl, ih (idx + 1) (offset + size)⟩
    · exact ⟨rfl, trivial⟩

theorem uploadChunks_sizes (chunkStatus : Nat → Nat) (sizes : List Nat)
    (idx offset : Nat) :
    ∀ p ∈ (uploadChunks chunkStatus sizes idx offset).2, p.2 ∈ sizes := by
  induction sizes generalizing idx offset with
  | nil => simp [uploadChunks]
  | cons size rest ih =>
    intro p hp
    unfold uploadChunks at hp
    split at hp
    · rcases List.mem_cons.mp hp with h | h
      · subst h; exact List.mem_cons_self _ _
      · exact List.mem_cons_of_mem _ (ih (idx + 1) (offset + size) p h)
    · rcases List.mem_cons.mp hp with h | h
      · subst h; exact List.mem_cons_self _ _
      · simp at h

theorem chunkSizesAux_mem (fuel n : Nat) :
    ∀ size ∈ chunkSizesAux fuel n, 0 < size ∧ size ≤ CHUNK_SIZE := by
  induction fuel generalizing n with
  | zero => simp [chunkSizesAux]
  | succ fuel ih =>
    intro size hsize
    unfold chunkSizesAux at hsize
    split at hsize
    · simp at hsize
    · split at hsize
      · simp at hsize
        subst hsize
        omega
      · rcases List.mem_cons.mp hsize with h | h
        · subst h
          constructor
          · norm_num [CHUNK_SIZE]
          · exact le_refl CHUNK_SIZE
        · exact ih _ _ h

theorem chunkSizes_mem (n : Nat) :
    ∀ size ∈ chunkSizes n, 0 < size ∧ size ≤ CHUNK_SIZE := by
  intro size h
  exact chunkSizesAux_mem _ _ size h

theorem chunkSizes_ne_nil (n : Nat) (h : 0 < n) : chunkSizes n ≠ [] := by
  unfold chunkSizes chunkSizesAux
  rw [if_neg (by omega)]
  split <;> simp

/-- C4: with the source reachable, the engine takes the single-shot
full-buffer path exactly when the source reports a content length strictly
below 4 MiB; otherwise (length at or above the threshold, or unknown) it
initiates the chunked session, and when the session is granted it streams
chunks of at most 320 KiB whose byte ranges start at 0 and advance by a
running offset (each request's offset is the previous offset plus the
previous chunk's length). -/
theorem stream_path_selection (env : TransferEnv) (stats : TransferStats)
    (hk : env.koboOk = true) :
    ((stream_media_to_sharepoint env stats).path = UploadPath.direct ↔
      ∃ n, env.contentLength = some n ∧ n < SMALL_THRESHOLD)
    ∧ (reportsSmall env.contentLength = false → env.sessionStatus = 200 →
        (stream_media_to_sharepoint env stats).path = UploadPath.chunked
        ∧ consecutiveFrom 0 (stream_media_to_sharepoint env stats).chunkRequests
        ∧ ∀ p ∈ (stream_media_to_sharepoint env stats).chunkRequests,
            0 < p.2 ∧ p.2 ≤ CHUNK_SIZE) := by
  constructor
  · unfold stream_media_to_sharepoint
    rw [if_neg (by simp [hk])]
    constructor
    · intro hpath
      by_cases hsmall : reportsSmall env.contentLength
      · cases hcl : env.contentLength with
        | none => rw [hcl] at hsmall; simp [reportsSmall] at hsmall
        | some n =>
          refine ⟨n, rfl, ?_⟩
          rw [hcl] at hsmall
          simpa [reportsSmall] using hsmall
      · rw [if_neg hsmall] at hpath
        split at hpath
        · simp at hpath
        · dsimp only at hpath
          split at hpath <;> simp at hpath
    · rintro ⟨n, hcl, hn⟩
      have hsmall : reportsSmall env.contentLength = true := by
        simp [reportsSmall, hcl, hn]
      rw [if_pos hsmall]
  · intro hsmall hsession
    unfold stream_media_to_sharepoint
    rw [if_neg (by simp [hk]), if_neg (by simp [hsmall]), if_neg (by simp [hsession])]
    dsimp only
    split
    · exact ⟨rfl, uploadChunks_consecutive _ _ _ _,
        fun p hp => chunkSizes_mem env.bodyLen p.2 (uploadChunks_sizes _ _ _ _ p hp)⟩
    · exact ⟨rfl, uploadChunks_consecutive _ _ _ _,
        fun p hp => chunkSizes_mem env.bodyLen p.2 (uploadChunks_sizes _ _ _ _ p hp)⟩

/-- C4 witness: a reported length of 100 bytes selects the single-shot
path. -/
theorem stream_path_selection_witness :
    (stream_media_to_sharepoint ⟨true, some 100, 100, 200, 200, fun _ => 200⟩
      ⟨0, 0, 0, 0, 0⟩).path = UploadPath.direct :=
  (stream_path_selection ⟨true, some 100, 100, 200, 200, fun _ => 200⟩
      ⟨0, 0, 0, 0, 0⟩ rfl).1.mpr ⟨100, rfl, by norm_num [SMALL_THRESHOLD]⟩

/-- C5: on the chunked path, if the destination's acknowledgment of the
first chunk is not 200, 201 or 202, the transfer returns a failed outcome,
the failed counter grows by exactly one, and the transferred counter and the
running byte total are unchanged. -/
theorem stream_chunk_first_failure (env : TransferEnv) (stats : TransferStats)
    (hk : env.koboOk = true)
    (hbig : reportsSmall env.contentLength = false)
    (hsession : env.sessionStatus = 200)
    (hbody : 0 < env.bodyLen)
    (hfail : env.chunkStatus 0 ≠ 200 ∧ env.chunkStatus 0 ≠ 201 ∧ env.chunkStatus 0 ≠ 202) :
    (stream_media_to_sharepoint env stats).ok = false
    ∧ (stream_media_to_sharepoint env stats).stats.failed = stats.failed + 1
    ∧ (stream_media_to_sharepoint env stats).stats.transferred = stats.transferred
    ∧ (stream_media_to_sharepoint env stats).stats.total_size = stats.total_size := by
  unfold stream_media_to_sharepoint
  rw [if_neg (by simp [hk]), if_neg (by simp [hbig]), if_neg (by simp [hsession])]
  obtain ⟨size, rest, hsz⟩ : ∃ size rest, chunkSizes env.bodyLen = size :: rest := by
    cases h : chunkSizes env.bodyLen with
    | nil => exact absurd h (chunkSizes_ne_nil _ hbody)
    | cons a l => exact ⟨a, l, rfl⟩
  dsimp only
  rw [hsz]
  unfold uploadChunks
  rw [if_neg (by simp [hfail.1, hfail.2.1, hfail.2.2])]
  exact ⟨rfl, rfl, rfl, rfl⟩

/-- C5 witness: a 500 acknowledgment of the first chunk of a 1000-byte body
yields a failed outcome with zero bytes credited. -/
theorem stream_chunk_first_failure_witness :
    (stream_media_to_sharepoint ⟨true, none, 1000, 200, 200, fun _ => 500⟩
        ⟨0, 0, 0, 0, 0⟩).ok = false
    ∧ (stream_media_to_sharepoint ⟨true, none, 1000, 200, 200, fun _ => 500⟩
        ⟨0, 0, 0, 0, 0⟩).stats.failed = 1
    ∧ (stream_media_to_sharepoint ⟨true, none, 1000, 200, 200, fun _ => 500⟩
        ⟨0, 0, 0, 0, 0⟩).stats.transferred = 0
    ∧ (stream_media_to_sharepoint ⟨true, none, 1000, 200, 200, fun _ => 500⟩
        ⟨0, 0, 0, 0, 0⟩).stats.total_size = 0 :=
  stream_chunk_first_failure ⟨true, none, 1000, 200, 200, fun _ => 500⟩ ⟨0, 0, 0, 0, 0⟩
    rfl rfl rfl (by norm_num) ⟨by norm_num, by norm_num, by norm_num⟩

/-- C6: if creation of the chunked upload session fails, the engine does not
fail the transfer outright but degrades to the full-buffer single-shot
upload, and the outcome (success flag and all counters) is exactly that of
the single-shot path. -/
theorem stream_session_failure_fallback (env : TransferEnv) (stats : TransferStats)
    (hk : env.koboOk = true)
    (hbig : reportsSmall env.contentLength = false)
    (hsession : env.sessionStatus ≠ 200) :
    (stream_media_to_sharepoint env stats).path = UploadPath.sessionFallback
    ∧ (stream_media_to_sharepoint env stats).ok = (directUploadOutcome env stats).1
    ∧ (stream_media_to_sharepoint env stats).stats = (directUploadOutcome env stats).2 := by
  unfold stream_media_to_sharepoint
  rw [if_neg (by simp [hk]), if_neg (by simp [hbig]), if_pos (by simp [hsession])]
  exact ⟨rfl, rfl, rfl⟩

/-- C6 witness: with the session refused (status 500) and the direct upload
accepted (status 201), a 42-byte body is transferred and credited. -/
theorem stream_session_failure_fallback_witness :
    (stream_media_to_sharepoint ⟨true, none, 42, 201, 500, fun _ => 200⟩
        ⟨0, 0, 0, 0, 0⟩).path = UploadPath.sessionFallback
    ∧ (stream_media_to_sharepoint ⟨true, none, 42, 201, 500, fun _ => 200⟩
        ⟨0, 0, 0, 0, 0⟩).ok = true
    ∧ (stream_media_to_sharepoint ⟨true, none, 42, 201, 500, fun _ => 200⟩
        ⟨0, 0, 0, 0, 0⟩).stats.transferred = 1
    ∧ (stream_media_to_sharepoint ⟨true, none, 42, 201, 500, fun _ => 200⟩
        ⟨0, 0, 0, 0, 0⟩).stats.total_size = 42 := by
  have h := stream_session_failure_fallback ⟨true, none, 42, 201, 500, fun _ => 200⟩
    ⟨0, 0, 0, 0, 0⟩ rfl rfl (by norm_num)
  exact ⟨h.1, h.2.1.trans (by decide), by rw [h.2.2]; rfl, by rw [h.2.2]; rfl⟩

theorem uploadChunks_all_ok (chunkStatus : Nat → Nat)
    (hok : ∀ i, chunkStatus i = 200 ∨ chunkStatus i = 201 ∨ chunkStatus i = 202)
    (sizes : List Nat) (idx offset : Nat) :
    (uploadChunks chunkStatus sizes idx offset).1 = true := by
  induction sizes generalizing idx offset with
  | nil => rfl
  | cons size rest ih =>
    unfold uploadChunks
    rw [if_pos]
    · exact ih (idx + 1) (offset + size)
    · rcases hok idx with h | h | h <;> simp [h]

/-- C9: every call to `stream_media_to_sharepoint` increments exactly one of
the transferred and failed counters, by exactly one, and returns `true`
exactly when the transferred counter is the one incremented — no call leaves
both unchanged or increments both. -/
theorem stream_counters_invariant (env : TransferEnv) (stats : TransferStats) :
    ((stream_media_to_sharepoint env stats).ok = true
      ∧ (stream_media_to_sharepoint env stats).stats.transferred = stats.transferred + 1
      ∧ (stream_media_to_sharepoint env stats).stats.failed = stats.failed)
    ∨ ((stream_media_to_sharepoint env stats).ok = false
      ∧ (stream_media_to_sharepoint env stats).stats.failed = stats.failed + 1
      ∧ (stream_media_to_sharepoint env stats).stats.transferred = stats.transferred) := by
  unfold stream_media_to_sharepoint
  split
  · exact Or.inr ⟨rfl, rfl, rfl⟩
  · split
    · unfold directUploadOutcome
      split
      · exact Or.inl ⟨rfl, rfl, rfl⟩
      · exact Or.inr ⟨rfl, rfl, rfl⟩
    · split
      · unfold directUploadOutcome
        split
        · exact Or.inl ⟨rfl, rfl, rfl⟩
        · exact Or.inr ⟨rfl, rfl, rfl⟩
      · dsimp only
        split
        · exact Or.inl ⟨rfl, rfl, rfl⟩
        · exact Or.inr ⟨rfl, rfl, rfl⟩

/-- C10: on a successful chunked upload the running byte total grows by the
source-declared content length — zero when the source reported none — rather
than by the number of bytes actually streamed. -/
theorem stream_chunked_credits_declared (env : TransferEnv) (stats : TransferStats)
    (hk : env.koboOk = true)
    (hbig : reportsSmall env.contentLength = false)
    (hsession : env.sessionStatus = 200)
    (hok : ∀ i, env.chunkStatus i = 200 ∨ env.chunkStatus i = 201 ∨ env.chunkStatus i = 202) :
    (stream_media_to_sharepoint env stats).ok = true
    ∧ (stream_media_to_sharepoint env stats).stats.total_size =
        stats.total_size + (match env.contentLength with
          | some n => n
          | none => 0) := by
  unfold stream_media_to_sharepoint
  rw [if_neg (by simp [hk]), if_neg (by simp [hbig]), if_neg (by simp [hsession])]
  dsimp only
  rw [if_pos (uploadChunks_all_ok env.chunkStatus hok _ _ _)]
  exact ⟨rfl, rfl⟩

/-- C10 witness: a successful chunked upload of a 700000-byte body with no
declared content length credits zero bytes. -/
theorem stream_chunked_credits_declared_witness :
    (stream_media_to_sharepoint ⟨true, none, 700000, 200, 200, fun _ => 200⟩
        ⟨0, 0, 0, 0, 0⟩).ok = true
    ∧ (stream_media_to_sharepoint ⟨true, none, 700000, 200, 200, fun _ => 200⟩
        ⟨0, 0, 0, 0, 0⟩).stats.total_size = 0 := by
  have h := stream_chunked_credits_declared ⟨true, none, 700000, 200, 200, fun _ => 200⟩
    ⟨0, 0, 0, 0, 0⟩ rfl rfl rfl (fun _ => Or.inl rfl)
  exact ⟨h.1, h.2⟩

/-! ## Claims C7 and C8 -/

theorem matchUrlAt_none_of_not_prefix (l : List Char)
    (h : "http".toList.isPrefixOf l = false) : matchUrlAt l = none := by
  unfold matchUrlAt
  split
  · exfalso
    simp [List.isPrefixOf] at h
  · rfl

theorem findUrls_nil_of_no_http (fuel : Nat) (l : List Char)
    (h : listInfixOf "http".toList l = false) : findUrls fuel l = [] := by
  induction fuel generalizing l with
  | zero => rfl
  | succ fuel ih =>
    cases l with
    | nil => rfl
    | cons c rest =>
      unfold listInfixOf at h
      simp only [Bool.or_eq_false_iff] at h
      have hnone := matchUrlAt_none_of_not_prefix _ h.1
      simp only [findUrls, hnone]
      exact ih rest h.2

theorem extract_urls_fallback_nil (text : String)
    (h : strContains text "http" = false) : extract_urls_fallback text = [] := by
  unfold extract_urls_fallback
  rw [findUrls_nil_of_no_http _ _ h]
  rfl

/-- C7 (amended): `parse_attachments` never raises (it is embedded as a
total function: every Python path is covered and the `except` branches are
unreachable), and it returns an empty sequence for the empty string, for the
literal text `"nan"`, and for any text containing no URL or media-extension
markers — unless the text itself (after quote-stripping / unescaping /
single-quote normalization) parses as JSON, in which case the parsed JSON
content is returned even without markers (in the pipeline that case is
excluded by the caller's marker short-circuit). -/
theorem parse_attachments_empty_spec :
    (parse_attachments "" = [] ∧ parse_attachments "nan" = [])
    ∧ ∀ s, structuredParse s = none →
        strContains s "http" = false →
        mediaExtensions.all (fun ext => !(strContains s ext)) = true →
        parse_attachments s = [] := by
  refine ⟨⟨rfl, rfl⟩, ?_⟩
  intro s hparse hhttp _hext
  unfold parse_attachments
  split
  · rfl
  · rw [hparse]
    exact extract_urls_fallback_nil s hhttp

/-- C7 witness: `"hello world"` has no markers and fails both JSON parses,
so extraction yields the empty sequence. -/
theorem parse_attachments_empty_spec_witness :
    parse_attachments "hello world" = [] :=
  parse_attachments_empty_spec.2 "hello world" rfl rfl rfl

/-- C7 counterexample: `"[0]"` contains no URL or media-extension marker,
yet `parse_attachments` returns the non-empty sequence `[0]` (the input is
valid JSON), refuting the claim as stated for `parse_attachments` taken in
isolation. -/
theorem parse_attachments_json_counterexample :
    strContains "[0]" "http" = false
    ∧ mediaExtensions.all (fun ext => !(strContains "[0]" ext)) = true
    ∧ parse_attachments "[0]" = [Jval.num 0]
    ∧ parse_attachments "[0]" ≠ [] := by
  refine ⟨rfl, rfl, rfl, ?_⟩
  intro h
  rw [show parse_attachments "[0]" = [Jval.num 0] from rfl] at h
  exact List.cons_ne_nil _ _ h

/-- C8: the field value `'[{"download_url":"http://x/a.jpg"}]'` yields
exactly one candidate with source URL `http://x/a.jpg` (and the default
suggested filename `media_1` for row 1); in general, on a successfully
parsed attachment object the download URL is the first of the
`download_large_url`, `download_url`, `download_medium_url` keys present
with a truthy value, and an element with none of these keys truthy yields no
candidate. -/
theorem attachment_extraction_spec :
    extractCandidates "[\x7b\"download_url\":\"http://x/a.jpg\"\x7d]" 1
      = [(Jval.str "http://x/a.jpg", Jval.str "media_1")]
    ∧ (∀ kvs : List (String × Jval), ∀ v,
        List.lookup "download_large_url" kvs = some v → jtruthy v = true →
        get_download_url (Jval.obj kvs) = some v)
    ∧ (∀ kvs : List (String × Jval), ∀ v,
        (List.lookup "download_large_url" kvs = none ∨
          ∃ w, List.lookup "download_large_url" kvs = some w ∧ jtruthy w = false) →
        List.lookup "download_url" kvs = some v → jtruthy v = true →
        get_download_url (Jval.obj kvs) = some v)
    ∧ (∀ kvs : List (String × Jval), ∀ v,
        (List.lookup "download_large_url" kvs = none ∨
          ∃ w, List.lookup "download_large_url" kvs = some w ∧ jtruthy w = false) →
        (List.lookup "download_url" kvs = none ∨
          ∃ w, List.lookup "download_url" kvs = some w ∧ jtruthy w = false) →
        List.lookup "download_medium_url" kvs = some v → jtruthy v = true →
        get_download_url (Jval.obj kvs) = some v)
    ∧ (∀ kvs : List (String × Jval),
        (List.lookup "download_large_url" kvs = none ∨
          ∃ w, List.lookup "download_large_url" kvs = some w ∧ jtruthy w = false) →
        (List.lookup "download_url" kvs = none ∨
          ∃ w, List.lookup "download_url" kvs = some w ∧ jtruthy w = false) →
        (List.lookup "download_medium_url" kvs = none ∨
          ∃ w, List.lookup "download_medium_url" kvs = some w ∧ jtruthy w = false) →
        get_download_url (Jval.obj kvs) = none) := by
  refine ⟨rfl, ?_, ?_, ?_, ?_⟩
  · intro kvs v hlook htru
    simp [get_download_url, firstTruthyKey, hlook, htru]
  · intro kvs v hlarge hlook htru
    rcases hlarge with h | ⟨w, hw, hwf⟩
    · simp [get_download_url, firstTruthyKey, h, hlook, htru]
    · simp [get_download_url, firstTruthyKey, hw, hwf, hlook, htru]
  · intro kvs v hlarge hurl hlook htru
    rcases hlarge with h | ⟨w, hw, hwf⟩ <;>
      rcases hurl with h' | ⟨w', hw', hwf'⟩ <;>
        simp [get_download_url, firstTruthyKey, *]
  · intro kvs hlarge hurl hmed
    rcases hlarge with h | ⟨w, hw, hwf⟩ <;>
      rcases hurl with h' | ⟨w', hw', hwf'⟩ <;>
        rcases hmed with h'' | ⟨w'', hw'', hwf''⟩ <;>
          simp [get_download_url, firstTruthyKey, *]

/-- C8 witness: `download_large_url` outranks `download_url` regardless of
key order in the object. -/
theorem attachment_extraction_spec_witness :
    get_download_url (Jval.obj [("download_url", Jval.str "http://fallback"),
        ("download_large_url", Jval.str "http://large")])
      = some (Jval.str "http://large") :=
  attachment_extraction_spec.2.1
    [("download_url", Jval.str "http://fallback"),
     ("download_large_url", Jval.str "http://large")]
    (Jval.str "http://large") rfl (by decide)
